import Mathlib

/-!
# ntttcp stream engine (src/tcpstream.c): a shallow embedding

The C functions of `tcpstream.c` are rendered as Lean functions.  Every system
call is replaced by the value the operating system handed back, supplied by the
caller of the model: the functions below are deterministic in these values.

Integer types follow FreeBSD/amd64: `size_t` is 64 bits wide and unsigned,
`ssize_t` and `long` are 64 bits wide, `int` is 32 bits wide.  The two places
where `tcpstream.c` narrows a `size_t` to an `int` (the `return` statements of
`n_read` and `n_write`) are modelled with the wrap-around the FreeBSD compilers
implement.  Accumulations in a `long` (`nbytes` in the sender) and the shared
counter `total_bytes_transferred` (whose declaration is in a header outside
`src/`) are kept as mathematical integers.
-/

namespace Ntttcp

/-! ## Constants and integer conversions -/

/-- Error codes of the project header (the header is not part of `src/`): they
are parameters of the model.  The callers test `n < 0` and `nbytes <= 0`
to recognise them. -/
structure ErrorCodes where
  NO_ERROR : Int
  ERROR_MEMORY_ALLOC : Int
  ERROR_SELECT : Int
  ERROR_ACCEPT : Int
  ERROR_EPOLL : Int
  ERROR_NETWORK_READ : Int
  ERROR_NETWORK_WRITE : Int

/-- A concrete assignment of negative `int` codes, used to evaluate the model on
inputs.  The general theorems take the codes as a parameter. -/
def sample_codes : ErrorCodes :=
  { NO_ERROR := 0
    ERROR_MEMORY_ALLOC := -1002
    ERROR_SELECT := -1103
    ERROR_ACCEPT := -1102
    ERROR_EPOLL := -1104
    ERROR_NETWORK_READ := -1105
    ERROR_NETWORK_WRITE := -1106 }

/-- FreeBSD `errno` value of `EINTR`. -/
def EINTR : Int := 4

/-- FreeBSD `errno` value of `EAGAIN`. -/
def EAGAIN : Int := 35

/-- Conversion of an integer value to `size_t`: reduction modulo `2^64`. -/
def to_size_t (x : Int) : Nat := (x % 18446744073709551616).toNat

/-- Conversion of an integer value to `int`: reduction modulo `2^32` into the
range `[-2^31, 2^31)`. -/
def to_int (x : Int) : Int := (x + 2147483648) % 4294967296 - 2147483648

/-- The outcome of one `read(2)`/`write(2)` call: the returned `ssize_t` and the
value of `errno` after the call. -/
structure SysResult where
  rtn : Int
  errno : Int
deriving DecidableEq, Repr

/-! ## `n_read` and `n_write` -/

/-- The `while (left > 0)` loop of `n_read` together with the final
`return total - left`.  `trace` lists the outcomes of the successive `read`
calls; the result is `none` when the loop asks for a call the trace does not
hold. -/
def n_read_loop (K : ErrorCodes) (total : Nat) : Nat → List SysResult → Option Int
  | left, [] =>
    if left > 0 then none
    else some (to_int (to_size_t ((total : Int) - left)))
  | left, r :: rest =>
    if left > 0 then
      if r.rtn < 0 then
        if r.errno = EINTR ∨ r.errno = EAGAIN then
          some (to_int (to_size_t ((total : Int) - left)))
        else
          some K.ERROR_NETWORK_READ
      else if r.rtn = 0 then
        some (to_int (to_size_t ((total : Int) - left)))
      else
        n_read_loop K total (to_size_t ((left : Int) - r.rtn)) rest
    else some (to_int (to_size_t ((total : Int) - left)))

/-- Embedding of `int n_read(int fd, char *buffer, size_t total)`. -/
def n_read (K : ErrorCodes) (total : Nat) (trace : List SysResult) : Option Int :=
  n_read_loop K total total trace

/-- The `while (left > 0)` loop of `n_write` together with the final
`return total`.  `trace` lists the outcomes of the successive `write` calls;
the result is `none` when the loop asks for a call the trace does not hold. -/
def n_write_loop (K : ErrorCodes) (total : Nat) : Nat → List SysResult → Option Int
  | left, [] =>
    if left > 0 then none
    else some (to_int total)
  | left, r :: rest =>
    if left > 0 then
      if r.rtn < 0 then
        if r.errno = EINTR ∨ r.errno = EAGAIN then
          some (to_int (to_size_t ((total : Int) - left)))
        else
          some K.ERROR_NETWORK_WRITE
      else if r.rtn = 0 then
        some K.ERROR_NETWORK_WRITE
      else
        n_write_loop K total (to_size_t ((left : Int) - r.rtn)) rest
    else some (to_int total)

/-- Embedding of `int n_write(int fd, const char *buffer, size_t total)`. -/
def n_write (K : ErrorCodes) (total : Nat) (trace : List SysResult) : Option Int :=
  n_write_loop K total total trace

/-- Sum of the values returned by a list of calls. -/
def rtn_sum (trace : List SysResult) : Int := (trace.map (fun r => r.rtn)).sum

/-- The system-call contract on a trace: a call asked for `left` bytes never
reports more than `left`, and the next call is asked for what then remains. -/
def admissible : Nat → List SysResult → Bool
  | _, [] => true
  | left, r :: rest =>
    decide (r.rtn ≤ left) && (decide (r.rtn ≤ 0) || admissible (left - r.rtn.toNat) rest)

/-- The calls that returned a positive count before the first call that did
not. -/
def leading_positive (trace : List SysResult) : List SysResult :=
  trace.takeWhile (fun r => decide (0 < r.rtn))

/-- The first call of the trace that did not return a positive count. -/
def first_nonpositive (trace : List SysResult) : Option SysResult :=
  trace.find? (fun r => decide (r.rtn ≤ 0))

/-- Spec wording for the error case of `boundedWrite`: before `total` bytes have
been accepted and before any `EINTR`/`EAGAIN` failure, some `write` call fails
with another `errno` or returns 0. -/
def write_hard_fails (total : Nat) (trace : List SysResult) : Bool :=
  decide (rtn_sum (leading_positive trace) < total) &&
    (match first_nonpositive trace with
     | none => false
     | some r => decide (r.rtn = 0) ||
         (decide (r.rtn < 0) && !(decide (r.errno = EINTR) || decide (r.errno = EAGAIN))))

/-- Spec wording for the error case of `boundedRead`: before `total` bytes are
obtained and before any end-of-stream or `EINTR`/`EAGAIN` outcome, some `read`
call fails with an `errno` other than `EINTR` and `EAGAIN`. -/
def read_hard_fails (total : Nat) (trace : List SysResult) : Bool :=
  decide (rtn_sum (leading_positive trace) < total) &&
    (match first_nonpositive trace with
     | none => false
     | some r => decide (r.rtn < 0) && !(decide (r.errno = EINTR) || decide (r.errno = EAGAIN)))


/-! ## Sender: `run_ntttcp_sender_stream` -/

/-- What the sender's loop over the `getaddrinfo` list obtains for one entry:
the value of `socket(...)` and the value of `connect(...)`. -/
structure ConnectCandidate where
  socket_rtn : Int
  connect_rtn : Int

/-- Values the environment hands to one run of `run_ntttcp_sender_stream`.
`writes` lists the values returned by the `n_write` calls made while
`is_light_turned_on()` answered true; the peek that follows the last listed
call answers false. -/
structure SenderEnv where
  malloc_ip_ok : Bool
  getaddrinfo_rtn : Int
  candidates : List ConnectCandidate
  malloc_buffer_ok : Bool
  writes : List Int

/-- How the `for (p = serv_info; p != NULL; p = p->ai_next)` loop of the sender
is left: by a `return` of the thread, or by falling out of the loop with the
current value of `sockfd`. -/
inductive ConnectExit where
  | returned (result : Int)
  | proceeds (sockfd : Int)
deriving DecidableEq, Repr

/-- The sender's loop over the resolved candidates.  Both branches of the body
leave the loop (`return 0` or `break`), so `p = p->ai_next` is never reached;
with an empty list the loop body does not run and `sockfd` keeps its value. -/
def sender_connect_loop : Int → List ConnectCandidate → ConnectExit
  | sockfd, [] => .proceeds sockfd
  | _, p :: _ =>
    if p.socket_rtn < 0 then .returned 0
    else if p.connect_rtn < 0 then .returned 0
    else .proceeds p.socket_rtn

/-- The `while (is_light_turned_on())` loop of the sender followed by
`return (void *)nbytes`. -/
def sender_stream_loop : Int → List Int → Int
  | nbytes, [] => nbytes
  | nbytes, n :: rest =>
    if n < 0 then 0
    else sender_stream_loop (nbytes + n) rest

/-- Embedding of `void *run_ntttcp_sender_stream(void *ptr)`: the thread's
result as an integer.  The calls that only produce log text are left out, and
`wait_light_on()` is taken to return. -/
def run_ntttcp_sender_stream (env : SenderEnv) : Int :=
  if !env.malloc_ip_ok then 0
  else if env.getaddrinfo_rtn ≠ 0 then 0
  else
    match sender_connect_loop 0 env.candidates with
    | .returned result => result
    | .proceeds _ =>
      if !env.malloc_buffer_ok then 0
      else sender_stream_loop 0 env.writes

/-! ## Receiver state -/

/-- An `fd_set`: the set of descriptors whose bit is set.  The model covers
descriptors in the range `0 .. FD_SETSIZE - 1`, the domain of the macros
below. -/
abbrev fd_set := Finset Int

/-- The macro `FD_ZERO`. -/
def FD_ZERO : fd_set := ∅

/-- The macro `FD_SET`. -/
def FD_SET (fd : Int) (set : fd_set) : fd_set := insert fd set

/-- The macro `FD_CLR`. -/
def FD_CLR (fd : Int) (set : fd_set) : fd_set := set.erase fd

/-- The macro `FD_ISSET`. -/
def FD_ISSET (fd : Int) (set : fd_set) : Bool := decide (fd ∈ set)

/-- The fields of `struct ntttcp_stream_server` that `tcpstream.c` reads or
writes.  The structure is declared in a header outside `src/`; the counter
`total_bytes_transferred`, updated with `__sync_fetch_and_add`, is kept as a
mathematical integer. -/
structure ntttcp_stream_server where
  listener : Int
  max_fd : Int
  read_set : fd_set
  write_set : fd_set
  total_bytes_transferred : Int
  recv_buf_size : Int
  is_sync_thread : Bool
  no_synch : Bool
  use_epoll : Bool

/-- Embedding of `int set_socket_non_blocking(int fd)` on the values of its two
`fcntl` calls. -/
def set_socket_non_blocking (getfl_rtn setfl_rtn : Int) : Int :=
  if getfl_rtn = -1 then -1
  else if setfl_rtn = -1 then -1
  else 0

/-- What the listener's loop obtains for one `getaddrinfo` entry. -/
structure BindCandidate where
  socket_rtn : Int
  setsockopt_rtn : Int
  getfl_rtn : Int
  setfl_rtn : Int
  bind_rtn : Int

/-- Values the environment hands to one call of `ntttcp_server_listen`. -/
structure ListenEnv where
  getaddrinfo_rtn : Int
  malloc_ok : Bool
  candidates : List BindCandidate
  listen_rtn : Int

/-- How the `for` loop of `ntttcp_server_listen` is left: by a `return`, or by
falling out of the loop with `sockfd` and the test `p == NULL`. -/
inductive BindExit where
  | returned (rtn : Int)
  | done (sockfd : Int) (p_null : Bool)
deriving DecidableEq, Repr

/-- The loop of `ntttcp_server_listen` over the resolved candidates: a failed
`bind` moves on to the next entry (`continue`). -/
def listen_bind_loop : Int → List BindCandidate → BindExit
  | sockfd, [] => .done sockfd true
  | _, p :: rest =>
    if p.socket_rtn < 0 then .returned (-1)
    else if p.setsockopt_rtn < 0 then .returned (-1)
    else if set_socket_non_blocking p.getfl_rtn p.setfl_rtn = -1 then .returned (-1)
    else if p.bind_rtn < 0 then listen_bind_loop p.socket_rtn rest
    else .done p.socket_rtn false

/-- Embedding of `int ntttcp_server_listen(struct ntttcp_stream_server *ss)`:
the returned value and the structure as the call leaves it. -/
def ntttcp_server_listen (ss : ntttcp_stream_server) (env : ListenEnv) :
    Int × ntttcp_stream_server :=
  if env.getaddrinfo_rtn ≠ 0 then (-1, ss)
  else if !env.malloc_ok then (-1, ss)
  else
    match listen_bind_loop 0 env.candidates with
    | .returned rtn => (rtn, ss)
    | .done sockfd p_null =>
      if p_null then (-1, ss)
      else
        let ss1 := { ss with listener := sockfd }
        if env.listen_rtn < 0 then (-1, ss1)
        else
          let ss2 := { ss1 with read_set := FD_ZERO, write_set := FD_ZERO }
          let ss3 := { ss2 with read_set := FD_SET ss2.listener ss2.read_set }
          let ss4 := if ss3.listener > ss3.max_fd then { ss3 with max_fd := ss3.listener } else ss3
          (ss4.listener, ss4)

/-! ## Receiver: the `select` loop -/

/-- Position of the receiver thread inside `ntttcp_server_select`: about to
call `select`, inside the `for` loop over descriptors with the local
`read_set` and `current_fd`, or no longer in the loop. -/
inductive Pc where
  | wait
  | scan (read_set : fd_set) (current_fd : Int)
  | stopped (rtn : Int)
deriving DecidableEq

/-- State of the receiver thread in `ntttcp_server_select`: the shared server
record, the local `err_code`, the start flag, and the position. -/
structure SelectState where
  ss : ntttcp_stream_server
  err_code : Int
  light_on : Bool
  pc : Pc

/-- Values the environment hands to one step of the loop; a step uses the
fields of the call it makes.  `ready` is the set of descriptors `select`
reports readable. -/
structure SelectEnv where
  select_rtn : Int
  errno : Int
  ready : fd_set
  accept_rtn : Int
  n_read_rtn : Int

/-- The calls to the operating system and to `n_read` that a step makes. -/
inductive Call where
  | select_call
  | accept_call (rtn : Int)
  | n_read_call (fd : Int) (total : Nat) (rtn : Int)
  | close_call (fd : Int)
deriving DecidableEq, Repr

/-- The number of bytes asked of `n_read`:
`bytes_to_be_read = ss->is_sync_thread ? 1 : ss->recv_buf_size`, an `int` passed
as `size_t`. -/
def bytes_to_be_read (ss : ntttcp_stream_server) : Nat :=
  to_size_t (if ss.is_sync_thread then 1 else to_int ss.recv_buf_size)

/-- Modelled from the spec: `turn_on_light()` (defined outside `src/`) sets the
start flag ON. -/
def turn_on_light (_light_on : Bool) : Bool := true

/-- The local `read_set` after `memcpy(&read_set, &ss->read_set, ...)` and
`select(ss->max_fd + 1, &read_set, NULL, NULL, NULL)`: `select` clears, among
the descriptors `0 .. max_fd`, those it does not report ready, and leaves
the bits above `max_fd` as copied. -/
def select_result (ss : ntttcp_stream_server) (ready : fd_set) : fd_set :=
  ss.read_set.filter (fun fd => ss.max_fd < fd ∨ fd ∈ ready)

/-- Entry of `ntttcp_server_select`: the two `malloc` calls, then the loop. -/
def ntttcp_server_select_entry (K : ErrorCodes) (ss : ntttcp_stream_server) (light_on : Bool)
    (malloc_buffer_ok malloc_ip_ok : Bool) : SelectState :=
  if !malloc_buffer_ok then
    { ss := ss, err_code := K.NO_ERROR, light_on := light_on, pc := .stopped K.ERROR_MEMORY_ALLOC }
  else if !malloc_ip_ok then
    { ss := ss, err_code := K.NO_ERROR, light_on := light_on, pc := .stopped K.ERROR_MEMORY_ALLOC }
  else
    { ss := ss, err_code := K.NO_ERROR, light_on := light_on, pc := .wait }

/-- The statements `FD_SET(newfd, &ss->read_set); if (newfd > ss->max_fd)
ss->max_fd = newfd;` that follow a successful `accept`. -/
def watch_new_fd (ss : ntttcp_stream_server) (newfd : Int) : ntttcp_stream_server :=
  let ss1 := { ss with read_set := FD_SET newfd ss.read_set }
  if newfd > ss1.max_fd then { ss1 with max_fd := newfd } else ss1

/-- One step of `ntttcp_server_select`: either the `select` call at the head of
`while (1)`, or one evaluation of the `for` loop test followed, when it holds,
by the loop body for `current_fd`.  Returns the next state and the calls
made. -/
def ntttcp_server_select_step (K : ErrorCodes) (e : SelectEnv) (s : SelectState) :
    SelectState × List Call :=
  match s.pc with
  | .stopped _ => (s, [])
  | .wait =>
    if e.select_rtn < 0 ∧ e.errno ≠ EINTR then
      ({ s with err_code := K.ERROR_SELECT }, [.select_call])
    else
      ({ s with pc := .scan (select_result s.ss e.ready) 0 }, [.select_call])
  | .scan read_set current_fd =>
    if ¬ current_fd ≤ s.ss.max_fd then ({ s with pc := .wait }, [])
    else if ¬ FD_ISSET current_fd read_set then
      ({ s with pc := .scan read_set (current_fd + 1) }, [])
    else if current_fd = s.ss.listener then
      if e.accept_rtn < 0 then
        ({ s with err_code := K.ERROR_ACCEPT, pc := .wait }, [.accept_call e.accept_rtn])
      else
        ({ s with
            ss := watch_new_fd s.ss e.accept_rtn
            light_on := if s.ss.no_synch then turn_on_light s.light_on else s.light_on
            pc := .scan read_set (current_fd + 1) }, [.accept_call e.accept_rtn])
    else
      if e.n_read_rtn ≤ 0 then
        ({ s with
            ss := { s.ss with read_set := FD_CLR current_fd s.ss.read_set }
            err_code := if e.n_read_rtn = 0 then s.err_code else K.ERROR_NETWORK_READ
            pc := .scan read_set (current_fd + 1) },
          [.n_read_call current_fd (bytes_to_be_read s.ss) e.n_read_rtn,
           .close_call current_fd])
      else
        ({ s with
            ss := { s.ss with
              total_bytes_transferred := s.ss.total_bytes_transferred + e.n_read_rtn }
            pc := .scan read_set (current_fd + 1) },
          [.n_read_call current_fd (bytes_to_be_read s.ss) e.n_read_rtn])

/-- The state after a finite sequence of steps. -/
def ntttcp_server_select_run (K : ErrorCodes) : SelectState → List SelectEnv → SelectState
  | s, [] => s
  | s, e :: es => ntttcp_server_select_run K (ntttcp_server_select_step K e s).1 es

/-- The calls made by a finite sequence of steps, in order. -/
def ntttcp_server_select_calls (K : ErrorCodes) : SelectState → List SelectEnv → List Call
  | _, [] => []
  | s, e :: es =>
    (ntttcp_server_select_step K e s).2
      ++ ntttcp_server_select_calls K (ntttcp_server_select_step K e s).1 es

/-- Sum of the strictly positive values returned by the `n_read` calls of a
list of calls. -/
def positive_bytes : List Call → Int
  | [] => 0
  | .n_read_call _ _ rtn :: cs => (if 0 < rtn then rtn else 0) + positive_bytes cs
  | _ :: cs => positive_bytes cs

/-- Whether a call is `accept`. -/
def Call.is_accept : Call → Bool
  | .accept_call _ => true
  | _ => false

/-- Whether a call is `select`. -/
def Call.is_select : Call → Bool
  | .select_call => true
  | _ => false

/-- The calls made before the next `select`. -/
def until_select (cs : List Call) : List Call := cs.takeWhile (fun c => !c.is_select)

/-- Embedding of `int ntttcp_server_epoll(struct ntttcp_stream_server *ss)`: the
body is `return ERROR_EPOLL;`, the rest is compiled out. -/
def ntttcp_server_epoll (K : ErrorCodes) : Int := K.ERROR_EPOLL

/-- Embedding of `void *run_ntttcp_receiver_stream(void *ptr)` up to the entry
of the event loop: `ss->listener` takes the value returned by
`ntttcp_server_listen`; a negative value ends the thread, `use_epoll` leads to
`ntttcp_server_epoll`, and otherwise `ntttcp_server_select` is entered. -/
def run_ntttcp_receiver_stream (K : ErrorCodes) (ss : ntttcp_stream_server) (light_on : Bool)
    (lenv : ListenEnv) (malloc_buffer_ok malloc_ip_ok : Bool) : SelectState :=
  let r := ntttcp_server_listen ss lenv
  let ss1 : ntttcp_stream_server := { r.2 with listener := r.1 }
  if ss1.listener < 0 then
    { ss := ss1, err_code := K.NO_ERROR, light_on := light_on, pc := .stopped ss1.listener }
  else if ss1.use_epoll then
    { ss := ss1, err_code := K.NO_ERROR, light_on := light_on,
      pc := .stopped (ntttcp_server_epoll K) }
  else ntttcp_server_select_entry K ss1 light_on malloc_buffer_ok malloc_ip_ok

/-- The watermark invariant: every watched descriptor is at most `max_fd`. -/
def watermark_ok (ss : ntttcp_stream_server) : Prop := ∀ fd ∈ ss.read_set, fd ≤ ss.max_fd

/-! ## Sample inputs -/

/-- A receiver structure whose listener is descriptor 3, as
`ntttcp_server_listen` leaves it. -/
def listening_server : ntttcp_stream_server :=
  { listener := 3, max_fd := 3, read_set := {3}, write_set := ∅, total_bytes_transferred := 0,
    recv_buf_size := 65536, is_sync_thread := false, no_synch := true, use_epoll := false }

/-- The receiver about to call `select`, watching only its listener. -/
def listening_state : SelectState :=
  { ss := listening_server, err_code := 0, light_on := false, pc := .wait }

/-- An environment in which `select` reports the listener (descriptor 3)
readable and the next `accept` returns `newfd`. -/
def pending_connection (newfd : Int) : SelectEnv :=
  { select_rtn := 1, errno := 0, ready := {3}, accept_rtn := newfd, n_read_rtn := 0 }

/-- The receiver inside the `for` loop at descriptor 4, a data connection that
`select` reported readable. -/
def serving_state : SelectState :=
  { ss := { listening_server with max_fd := 4, read_set := {3, 4} }, err_code := 0,
    light_on := true, pc := .scan {4} 4 }

/-- An environment in which `n_read` returns `nbytes`. -/
def read_outcome (nbytes : Int) : SelectEnv :=
  { select_rtn := 1, errno := 0, ready := {4}, accept_rtn := -1, n_read_rtn := nbytes }

/-- A sender environment: two resolved candidates, `connect` fails on the
first and would succeed on the second; one `n_write` of 5 bytes would follow. -/
def second_candidate_reachable : SenderEnv :=
  { malloc_ip_ok := true, getaddrinfo_rtn := 0, candidates := [⟨3, -1⟩, ⟨4, 0⟩],
    malloc_buffer_ok := true, writes := [5] }

/-- A sender environment: connected on descriptor 3, `n_write` returns 5 and
then the error code -1106. -/
def write_error_after_five : SenderEnv :=
  { malloc_ip_ok := true, getaddrinfo_rtn := 0, candidates := [⟨3, 0⟩],
    malloc_buffer_ok := true, writes := [5, -1106] }

/-- A sender environment: connected on descriptor 3, `n_write` returns 5 and 7
before the start flag goes off. -/
def two_writes : SenderEnv :=
  { malloc_ip_ok := true, getaddrinfo_rtn := 0, candidates := [⟨3, 0⟩],
    malloc_buffer_ok := true, writes := [5, 7] }

/-- A listener environment: one candidate, every call succeeds, the socket is
descriptor 3. -/
def listen_succeeds : ListenEnv :=
  { getaddrinfo_rtn := 0, malloc_ok := true, candidates := [⟨3, 0, 0, 0, 0⟩], listen_rtn := 0 }

/-- A receiver structure before `ntttcp_server_listen`. -/
def fresh_server : ntttcp_stream_server :=
  { listener := 0, max_fd := 0, read_set := ∅, write_set := ∅, total_bytes_transferred := 0,
    recv_buf_size := 65536, is_sync_thread := false, no_synch := true, use_epoll := false }

/-! ## Arithmetic of the conversions -/

theorem to_int_of_small (x : Int) (h0 : 0 ≤ x) (h1 : x < 2147483648) : to_int x = x := by
  unfold to_int
  omega

theorem to_size_t_of_small (x : Int) (h0 : 0 ≤ x) (h1 : x < 18446744073709551616) :
    to_size_t x = x.toNat := by
  unfold to_size_t
  congr 1
  omega

theorem to_size_t_sub (left : Nat) (r : Int) (h0 : 0 ≤ r) (h1 : r ≤ left)
    (h2 : left < 18446744073709551616) :
    to_size_t ((left : Int) - r) = left - r.toNat := by
  rw [to_size_t_of_small _ (by omega) (by omega)]
  omega

theorem count_of_small (total left : Nat) (h : left ≤ total) (hmax : total < 2147483648) :
    to_int (to_size_t ((total : Int) - left)) = (total : Int) - left := by
  rw [to_size_t_of_small _ (by omega) (by omega), to_int_of_small _ (by omega) (by omega)]
  omega

theorem rtn_sum_nil : rtn_sum [] = 0 := rfl

theorem rtn_sum_cons (r : SysResult) (t : List SysResult) :
    rtn_sum (r :: t) = r.rtn + rtn_sum t := by
  simp [rtn_sum]

theorem rtn_sum_nonneg (t : List SysResult) (h : ∀ p ∈ t, 0 < p.rtn) : 0 ≤ rtn_sum t := by
  induction t with
  | nil => simp [rtn_sum]
  | cons r t ih =>
    rw [rtn_sum_cons]
    have h1 := h r (List.mem_cons_self _ _)
    have h2 := ih (fun p hp => h p (List.mem_cons_of_mem _ hp))
    omega

theorem leading_positive_pos (t : List SysResult) : ∀ p ∈ leading_positive t, 0 < p.rtn := by
  intro p hp
  have := List.mem_takeWhile_imp hp
  simpa using this

/-! ## The loops on a run of positive results -/

theorem n_write_loop_run (K : ErrorCodes) (total : Nat) (rest : List SysResult) :
    ∀ (pre : List SysResult) (left : Nat), (∀ p ∈ pre, 0 < p.rtn) → rtn_sum pre ≤ left →
      left < 18446744073709551616 →
      n_write_loop K total left (pre ++ rest)
        = n_write_loop K total (left - (rtn_sum pre).toNat) rest := by
  intro pre
  induction pre with
  | nil => intro left _ _ _; simp [rtn_sum]
  | cons p pre ih =>
    intro left hpos hsum hlt
    have hp := hpos p (List.mem_cons_self _ _)
    have hrest : ∀ q ∈ pre, 0 < q.rtn := fun q hq => hpos q (List.mem_cons_of_mem _ hq)
    have hnn := rtn_sum_nonneg pre hrest
    rw [rtn_sum_cons] at hsum
    have hleft : left > 0 := by omega
    have h1 : ¬ p.rtn < 0 := by omega
    have h2 : ¬ p.rtn = 0 := by omega
    rw [List.cons_append, n_write_loop, if_pos hleft, if_neg h1, if_neg h2,
      to_size_t_sub left p.rtn (by omega) (by omega) hlt,
      ih (left - p.rtn.toNat) hrest (by omega) (by omega), rtn_sum_cons]
    congr 1
    omega

theorem n_read_loop_run (K : ErrorCodes) (total : Nat) (rest : List SysResult) :
    ∀ (pre : List SysResult) (left : Nat), (∀ p ∈ pre, 0 < p.rtn) → rtn_sum pre ≤ left →
      left < 18446744073709551616 →
      n_read_loop K total left (pre ++ rest)
        = n_read_loop K total (left - (rtn_sum pre).toNat) rest := by
  intro pre
  induction pre with
  | nil => intro left _ _ _; simp [rtn_sum]
  | cons p pre ih =>
    intro left hpos hsum hlt
    have hp := hpos p (List.mem_cons_self _ _)
    have hrest : ∀ q ∈ pre, 0 < q.rtn := fun q hq => hpos q (List.mem_cons_of_mem _ hq)
    have hnn := rtn_sum_nonneg pre hrest
    rw [rtn_sum_cons] at hsum
    have hleft : left > 0 := by omega
    have h1 : ¬ p.rtn < 0 := by omega
    have h2 : ¬ p.rtn = 0 := by omega
    rw [List.cons_append, n_read_loop, if_pos hleft, if_neg h1, if_neg h2,
      to_size_t_sub left p.rtn (by omega) (by omega) hlt,
      ih (left - p.rtn.toNat) hrest (by omega) (by omega), rtn_sum_cons]
    congr 1
    omega

theorem n_write_loop_zero (K : ErrorCodes) (total : Nat) (rest : List SysResult) :
    n_write_loop K total 0 rest = some (to_int total) := by
  cases rest <;> simp [n_write_loop]

theorem n_read_loop_zero (K : ErrorCodes) (total : Nat) (rest : List SysResult) :
    n_read_loop K total 0 rest = some (to_int (to_size_t ((total : Int) - (0 : Nat)))) := by
  cases rest <;> simp [n_read_loop]

/-! ## The error case of the loops -/

theorem leading_positive_cons_pos (r : SysResult) (t : List SysResult) (h : 0 < r.rtn) :
    leading_positive (r :: t) = r :: leading_positive t := by
  simp [leading_positive, List.takeWhile_cons, h]

theorem leading_positive_cons_nonpos (r : SysResult) (t : List SysResult) (h : r.rtn ≤ 0) :
    leading_positive (r :: t) = [] := by
  have h1 : ¬ 0 < r.rtn := by omega
  simp [leading_positive, List.takeWhile_cons, h1]

theorem first_nonpositive_cons_pos (r : SysResult) (t : List SysResult) (h : 0 < r.rtn) :
    first_nonpositive (r :: t) = first_nonpositive t := by
  have h1 : ¬ r.rtn ≤ 0 := by omega
  simp [first_nonpositive, List.find?_cons, h1]

theorem first_nonpositive_cons_nonpos (r : SysResult) (t : List SysResult) (h : r.rtn ≤ 0) :
    first_nonpositive (r :: t) = some r := by
  simp [first_nonpositive, List.find?_cons, h]

theorem write_hard_fails_zero (trace : List SysResult) : write_hard_fails 0 trace = false := by
  have h := rtn_sum_nonneg _ (leading_positive_pos trace)
  have h1 : decide (rtn_sum (leading_positive trace) < ((0 : Nat) : Int)) = false := by
    apply decide_eq_false
    simp only [Nat.cast_zero]
    omega
  unfold write_hard_fails
  rw [h1, Bool.false_and]

theorem read_hard_fails_zero (trace : List SysResult) : read_hard_fails 0 trace = false := by
  have h := rtn_sum_nonneg _ (leading_positive_pos trace)
  have h1 : decide (rtn_sum (leading_positive trace) < ((0 : Nat) : Int)) = false := by
    apply decide_eq_false
    simp only [Nat.cast_zero]
    omega
  unfold read_hard_fails
  rw [h1, Bool.false_and]

theorem write_hard_fails_cons_pos (left : Nat) (r : SysResult) (t : List SysResult)
    (h : 0 < r.rtn) (hle : r.rtn ≤ left) :
    write_hard_fails left (r :: t) = write_hard_fails (left - r.rtn.toNat) t := by
  unfold write_hard_fails
  rw [leading_positive_cons_pos r t h, first_nonpositive_cons_pos r t h, rtn_sum_cons]
  congr 1
  apply decide_eq_decide.mpr
  constructor <;> intro _ <;> omega

theorem read_hard_fails_cons_pos (left : Nat) (r : SysResult) (t : List SysResult)
    (h : 0 < r.rtn) (hle : r.rtn ≤ left) :
    read_hard_fails left (r :: t) = read_hard_fails (left - r.rtn.toNat) t := by
  unfold read_hard_fails
  rw [leading_positive_cons_pos r t h, first_nonpositive_cons_pos r t h, rtn_sum_cons]
  congr 1
  apply decide_eq_decide.mpr
  constructor <;> intro _ <;> omega

theorem n_write_loop_error_iff (K : ErrorCodes) (total : Nat)
    (hE : K.ERROR_NETWORK_WRITE < 0) (hmax : total < 2147483648) :
    ∀ (trace : List SysResult) (left : Nat), left ≤ total → admissible left trace = true →
      (n_write_loop K total left trace = some K.ERROR_NETWORK_WRITE
        ↔ write_hard_fails left trace = true) := by
  intro trace
  induction trace with
  | nil =>
    intro left hle _
    have ht := to_int_of_small (total : Int) (by omega) (by omega)
    by_cases hl : left > 0
    · simp [n_write_loop, hl, write_hard_fails, first_nonpositive]
    · simp only [n_write_loop, if_neg hl, ht, Option.some.injEq]
      have : left = 0 := by omega
      subst this
      rw [write_hard_fails_zero]
      constructor
      · intro h; omega
      · intro h; cases h
  | cons r rest ih =>
    intro left hle hadm
    have ht := to_int_of_small (total : Int) (by omega) (by omega)
    have hc := count_of_small total left hle hmax
    by_cases hl : left > 0
    · rw [n_write_loop, if_pos hl]
      by_cases h1 : r.rtn < 0
      · rw [if_pos h1]
        unfold write_hard_fails
        rw [leading_positive_cons_nonpos r rest (by omega),
          first_nonpositive_cons_nonpos r rest (by omega)]
        have hz : ¬ r.rtn = 0 := by omega
        by_cases h2 : r.errno = EINTR ∨ r.errno = EAGAIN
        · rw [if_pos h2, hc]
          simp only [Option.some.injEq]
          constructor
          · intro h; omega
          · intro h
            rcases h2 with h2 | h2 <;> simp [h2, hz] at h
        · rw [if_neg h2]
          have h3 : ¬ r.errno = EINTR := fun h => h2 (Or.inl h)
          have h4 : ¬ r.errno = EAGAIN := fun h => h2 (Or.inr h)
          have h5 : (0 : Int) < (left : Int) := by omega
          simp [rtn_sum, h1, h3, h4, h5]
      · rw [if_neg h1]
        by_cases h2 : r.rtn = 0
        · rw [if_pos h2]
          unfold write_hard_fails
          rw [leading_positive_cons_nonpos r rest (by omega),
            first_nonpositive_cons_nonpos r rest (by omega)]
          have h5 : (0 : Int) < (left : Int) := by omega
          simp [rtn_sum, h2, h5]
        · rw [if_neg h2]
          have hpos : 0 < r.rtn := by omega
          simp only [admissible, Bool.and_eq_true, Bool.or_eq_true, decide_eq_true_eq] at hadm
          obtain ⟨hle2, hadm2⟩ := hadm
          have hadm3 : admissible (left - r.rtn.toNat) rest = true := by
            rcases hadm2 with h | h
            · omega
            · exact h
          rw [to_size_t_sub left r.rtn (by omega) hle2 (by omega),
            write_hard_fails_cons_pos left r rest hpos hle2]
          exact ih (left - r.rtn.toNat) (by omega) hadm3
    · have : left = 0 := by omega
      subst this
      rw [n_write_loop_zero, ht, write_hard_fails_zero]
      simp only [Option.some.injEq]
      constructor
      · intro h; omega
      · intro h; cases h

theorem n_read_loop_error_iff (K : ErrorCodes) (total : Nat)
    (hE : K.ERROR_NETWORK_READ < 0) (hmax : total < 2147483648) :
    ∀ (trace : List SysResult) (left : Nat), left ≤ total → admissible left trace = true →
      (n_read_loop K total left trace = some K.ERROR_NETWORK_READ
        ↔ read_hard_fails left trace = true) := by
  intro trace
  induction trace with
  | nil =>
    intro left hle _
    have hc := count_of_small total left hle hmax
    by_cases hl : left > 0
    · simp [n_read_loop, hl, read_hard_fails, first_nonpositive]
    · simp only [n_read_loop, if_neg hl, hc, Option.some.injEq]
      have : left = 0 := by omega
      subst this
      rw [read_hard_fails_zero]
      constructor
      · intro h; omega
      · intro h; cases h
  | cons r rest ih =>
    intro left hle hadm
    have hc := count_of_small total left hle hmax
    by_cases hl : left > 0
    · rw [n_read_loop, if_pos hl]
      by_cases h1 : r.rtn < 0
      · rw [if_pos h1]
        unfold read_hard_fails
        rw [leading_positive_cons_nonpos r rest (by omega),
          first_nonpositive_cons_nonpos r rest (by omega)]
        by_cases h2 : r.errno = EINTR ∨ r.errno = EAGAIN
        · rw [if_pos h2, hc]
          simp only [Option.some.injEq]
          constructor
          · intro h; omega
          · intro h
            rcases h2 with h2 | h2 <;> simp [h2] at h
        · rw [if_neg h2]
          have h3 : ¬ r.errno = EINTR := fun h => h2 (Or.inl h)
          have h4 : ¬ r.errno = EAGAIN := fun h => h2 (Or.inr h)
          have h5 : (0 : Int) < (left : Int) := by omega
          simp [rtn_sum, h1, h3, h4, h5]
      · rw [if_neg h1]
        by_cases h2 : r.rtn = 0
        · rw [if_pos h2, hc]
          unfold read_hard_fails
          rw [leading_positive_cons_nonpos r rest (by omega),
            first_nonpositive_cons_nonpos r rest (by omega)]
          simp only [Option.some.injEq]
          constructor
          · intro h; omega
          · intro h
            simp [h2] at h
        · rw [if_neg h2]
          have hpos : 0 < r.rtn := by omega
          simp only [admissible, Bool.and_eq_true, Bool.or_eq_true, decide_eq_true_eq] at hadm
          obtain ⟨hle2, hadm2⟩ := hadm
          have hadm3 : admissible (left - r.rtn.toNat) rest = true := by
            rcases hadm2 with h | h
            · omega
            · exact h
          rw [to_size_t_sub left r.rtn (by omega) hle2 (by omega),
            read_hard_fails_cons_pos left r rest hpos hle2]
          exact ih (left - r.rtn.toNat) (by omega) hadm3
    · have : left = 0 := by omega
      subst this
      rw [n_read_loop_zero, count_of_small total 0 (by omega) hmax, read_hard_fails_zero]
      simp only [Option.some.injEq]
      constructor
      · intro h
        simp only [Nat.cast_zero, sub_zero] at h
        omega
      · intro h; cases h

/-! ## Narrowing to `int`: a full transfer that returns the error code -/

/-- Whatever negative `int` value `ERROR_NETWORK_WRITE` has, a request of
`2^32 + ERROR_NETWORK_WRITE` bytes that a single `write` accepts in full makes
`n_write` return that value although no call failed. -/
theorem n_write_wraps_to_error_code (K : ErrorCodes)
    (h1 : -2147483648 ≤ K.ERROR_NETWORK_WRITE) (h2 : K.ERROR_NETWORK_WRITE < 0) :
    n_write K (4294967296 + K.ERROR_NETWORK_WRITE).toNat
        [⟨4294967296 + K.ERROR_NETWORK_WRITE, 0⟩] = some K.ERROR_NETWORK_WRITE ∧
    admissible (4294967296 + K.ERROR_NETWORK_WRITE).toNat
        [⟨4294967296 + K.ERROR_NETWORK_WRITE, 0⟩] = true ∧
    write_hard_fails (4294967296 + K.ERROR_NETWORK_WRITE).toNat
        [⟨4294967296 + K.ERROR_NETWORK_WRITE, 0⟩] = false := by
  generalize hc : K.ERROR_NETWORK_WRITE = c at h1 h2
  have hpos : (4294967296 + c).toNat > 0 := by omega
  have hn1 : ¬ (4294967296 + c) < 0 := by omega
  have hn2 : ¬ (4294967296 + c) = 0 := by omega
  have hn3 : ¬ (4294967296 + c) ≤ 0 := by omega
  have hcast : (((4294967296 + c).toNat : Nat) : Int) = 4294967296 + c := by omega
  refine ⟨?_, ?_, ?_⟩
  · unfold n_write
    rw [n_write_loop, if_pos hpos]
    simp only [hn1, hn2, if_false]
    rw [hcast, sub_self]
    have hz : to_size_t 0 = 0 := rfl
    rw [hz, n_write_loop_zero, hcast]
    unfold to_int
    congr 1
    omega
  · simp only [admissible, hcast, le_refl, decide_True, hn3, decide_False, Bool.or_true,
      Bool.and_self]
  · unfold write_hard_fails first_nonpositive
    simp [List.find?_cons, hn3]

/-- Whatever negative `int` value `ERROR_NETWORK_READ` has, a request of
`2^32 + ERROR_NETWORK_READ` bytes that a single `read` delivers in full makes
`n_read` return that value although no call failed. -/
theorem n_read_wraps_to_error_code (K : ErrorCodes)
    (h1 : -2147483648 ≤ K.ERROR_NETWORK_READ) (h2 : K.ERROR_NETWORK_READ < 0) :
    n_read K (4294967296 + K.ERROR_NETWORK_READ).toNat
        [⟨4294967296 + K.ERROR_NETWORK_READ, 0⟩] = some K.ERROR_NETWORK_READ ∧
    admissible (4294967296 + K.ERROR_NETWORK_READ).toNat
        [⟨4294967296 + K.ERROR_NETWORK_READ, 0⟩] = true ∧
    read_hard_fails (4294967296 + K.ERROR_NETWORK_READ).toNat
        [⟨4294967296 + K.ERROR_NETWORK_READ, 0⟩] = false := by
  generalize hc : K.ERROR_NETWORK_READ = c at h1 h2
  have hpos : (4294967296 + c).toNat > 0 := by omega
  have hn1 : ¬ (4294967296 + c) < 0 := by omega
  have hn2 : ¬ (4294967296 + c) = 0 := by omega
  have hn3 : ¬ (4294967296 + c) ≤ 0 := by omega
  have hcast : (((4294967296 + c).toNat : Nat) : Int) = 4294967296 + c := by omega
  refine ⟨?_, ?_, ?_⟩
  · unfold n_read
    rw [n_read_loop, if_pos hpos]
    simp only [hn1, hn2, if_false]
    rw [hcast, sub_self]
    have hz : to_size_t 0 = 0 := rfl
    rw [hz, n_read_loop_zero, hcast]
    have hs : to_size_t (4294967296 + c - ((0 : Nat) : Int)) = (4294967296 + c).toNat := by
      rw [to_size_t_of_small _ (by omega) (by omega)]
      congr 1
      omega
    rw [hs, hcast]
    unfold to_int
    congr 1
    omega
  · simp only [admissible, hcast, le_refl, decide_True, hn3, decide_False, Bool.or_true,
      Bool.and_self]
  · unfold read_hard_fails first_nonpositive
    simp [List.find?_cons, hn3]

/-! ## The steps of the receiver's loop, case by case -/

theorem select_step_stopped (K : ErrorCodes) (e : SelectEnv) (s : SelectState) (rtn : Int)
    (hpc : s.pc = .stopped rtn) : ntttcp_server_select_step K e s = (s, []) := by
  simp [ntttcp_server_select_step, hpc]

theorem select_step_wait_failed (K : ErrorCodes) (e : SelectEnv) (s : SelectState)
    (hpc : s.pc = .wait) (h : e.select_rtn < 0 ∧ e.errno ≠ EINTR) :
    ntttcp_server_select_step K e s = ({ s with err_code := K.ERROR_SELECT }, [.select_call]) := by
  simp only [ntttcp_server_select_step, hpc]
  rw [if_pos h]

theorem select_step_wait_ready (K : ErrorCodes) (e : SelectEnv) (s : SelectState)
    (hpc : s.pc = .wait) (h : ¬ (e.select_rtn < 0 ∧ e.errno ≠ EINTR)) :
    ntttcp_server_select_step K e s
      = ({ s with pc := .scan (select_result s.ss e.ready) 0 }, [.select_call]) := by
  simp only [ntttcp_server_select_step, hpc]
  rw [if_neg h]

theorem select_step_exit (K : ErrorCodes) (e : SelectEnv) (s : SelectState) (rs : fd_set)
    (cur : Int) (hpc : s.pc = .scan rs cur) (h : ¬ cur ≤ s.ss.max_fd) :
    ntttcp_server_select_step K e s = ({ s with pc := .wait }, []) := by
  simp only [ntttcp_server_select_step, hpc]
  rw [if_pos h]

theorem select_step_skip (K : ErrorCodes) (e : SelectEnv) (s : SelectState) (rs : fd_set)
    (cur : Int) (hpc : s.pc = .scan rs cur) (h : cur ≤ s.ss.max_fd) (hn : cur ∉ rs) :
    ntttcp_server_select_step K e s = ({ s with pc := .scan rs (cur + 1) }, []) := by
  simp only [ntttcp_server_select_step, hpc]
  rw [if_neg (not_not.mpr h), if_pos (by simp [FD_ISSET, hn])]

theorem select_step_accept_failed (K : ErrorCodes) (e : SelectEnv) (s : SelectState)
    (rs : fd_set) (cur : Int) (hpc : s.pc = .scan rs cur) (h : cur ≤ s.ss.max_fd)
    (hm : cur ∈ rs) (hl : cur = s.ss.listener) (ha : e.accept_rtn < 0) :
    ntttcp_server_select_step K e s
      = ({ s with err_code := K.ERROR_ACCEPT, pc := .wait }, [.accept_call e.accept_rtn]) := by
  simp only [ntttcp_server_select_step, hpc]
  rw [if_neg (not_not.mpr h), if_neg (by simp [FD_ISSET, hm]), if_pos hl, if_pos ha]

theorem select_step_accept (K : ErrorCodes) (e : SelectEnv) (s : SelectState)
    (rs : fd_set) (cur : Int) (hpc : s.pc = .scan rs cur) (h : cur ≤ s.ss.max_fd)
    (hm : cur ∈ rs) (hl : cur = s.ss.listener) (ha : ¬ e.accept_rtn < 0) :
    ntttcp_server_select_step K e s
      = ({ s with
            ss := watch_new_fd s.ss e.accept_rtn
            light_on := if s.ss.no_synch then turn_on_light s.light_on else s.light_on
            pc := .scan rs (cur + 1) }, [.accept_call e.accept_rtn]) := by
  simp only [ntttcp_server_select_step, hpc]
  rw [if_neg (not_not.mpr h), if_neg (by simp [FD_ISSET, hm]), if_pos hl, if_neg ha]

theorem select_step_close (K : ErrorCodes) (e : SelectEnv) (s : SelectState)
    (rs : fd_set) (cur : Int) (hpc : s.pc = .scan rs cur) (h : cur ≤ s.ss.max_fd)
    (hm : cur ∈ rs) (hl : ¬ cur = s.ss.listener) (hr : e.n_read_rtn ≤ 0) :
    ntttcp_server_select_step K e s
      = ({ s with
            ss := { s.ss with read_set := FD_CLR cur s.ss.read_set }
            err_code := if e.n_read_rtn = 0 then s.err_code else K.ERROR_NETWORK_READ
            pc := .scan rs (cur + 1) },
          [.n_read_call cur (bytes_to_be_read s.ss) e.n_read_rtn, .close_call cur]) := by
  simp only [ntttcp_server_select_step, hpc]
  rw [if_neg (not_not.mpr h), if_neg (by simp [FD_ISSET, hm]), if_neg hl, if_pos hr]

theorem select_step_count (K : ErrorCodes) (e : SelectEnv) (s : SelectState)
    (rs : fd_set) (cur : Int) (hpc : s.pc = .scan rs cur) (h : cur ≤ s.ss.max_fd)
    (hm : cur ∈ rs) (hl : ¬ cur = s.ss.listener) (hr : ¬ e.n_read_rtn ≤ 0) :
    ntttcp_server_select_step K e s
      = ({ s with
            ss := { s.ss with
              total_bytes_transferred := s.ss.total_bytes_transferred + e.n_read_rtn }
            pc := .scan rs (cur + 1) },
          [.n_read_call cur (bytes_to_be_read s.ss) e.n_read_rtn]) := by
  simp only [ntttcp_server_select_step, hpc]
  rw [if_neg (not_not.mpr h), if_neg (by simp [FD_ISSET, hm]), if_neg hl, if_neg hr]

/-- Every step is one of the nine cases above. -/
theorem select_step_cases (K : ErrorCodes) (e : SelectEnv) (s : SelectState) :
    ntttcp_server_select_step K e s = (s, []) ∨
    ntttcp_server_select_step K e s = ({ s with err_code := K.ERROR_SELECT }, [.select_call]) ∨
    ntttcp_server_select_step K e s
      = ({ s with pc := .scan (select_result s.ss e.ready) 0 }, [.select_call]) ∨
    ntttcp_server_select_step K e s = ({ s with pc := .wait }, []) ∨
    (∃ rs cur, ntttcp_server_select_step K e s = ({ s with pc := .scan rs (cur + 1) }, [])) ∨
    ntttcp_server_select_step K e s
      = ({ s with err_code := K.ERROR_ACCEPT, pc := .wait }, [.accept_call e.accept_rtn]) ∨
    (∃ rs cur, ntttcp_server_select_step K e s
      = ({ s with
            ss := watch_new_fd s.ss e.accept_rtn
            light_on := if s.ss.no_synch then turn_on_light s.light_on else s.light_on
            pc := .scan rs (cur + 1) }, [.accept_call e.accept_rtn])) ∨
    (∃ rs cur, e.n_read_rtn ≤ 0 ∧ ntttcp_server_select_step K e s
      = ({ s with
            ss := { s.ss with read_set := FD_CLR cur s.ss.read_set }
            err_code := if e.n_read_rtn = 0 then s.err_code else K.ERROR_NETWORK_READ
            pc := .scan rs (cur + 1) },
          [.n_read_call cur (bytes_to_be_read s.ss) e.n_read_rtn, .close_call cur])) ∨
    (∃ rs cur, 0 < e.n_read_rtn ∧ ntttcp_server_select_step K e s
      = ({ s with
            ss := { s.ss with
              total_bytes_transferred := s.ss.total_bytes_transferred + e.n_read_rtn }
            pc := .scan rs (cur + 1) },
          [.n_read_call cur (bytes_to_be_read s.ss) e.n_read_rtn])) := by
  have hpc_eq : ∃ pc, s.pc = pc := ⟨s.pc, rfl⟩
  obtain ⟨pc, hpc⟩ := hpc_eq
  cases pc with
  | stopped rtn => exact Or.inl (select_step_stopped K e s rtn hpc)
  | wait =>
    by_cases h : e.select_rtn < 0 ∧ e.errno ≠ EINTR
    · exact Or.inr (Or.inl (select_step_wait_failed K e s hpc h))
    · exact Or.inr (Or.inr (Or.inl (select_step_wait_ready K e s hpc h)))
  | scan rs cur =>
    by_cases h : cur ≤ s.ss.max_fd
    · by_cases hm : cur ∈ rs
      · by_cases hl : cur = s.ss.listener
        · by_cases ha : e.accept_rtn < 0
          · exact Or.inr (Or.inr (Or.inr (Or.inr (Or.inr (Or.inl
              (select_step_accept_failed K e s rs cur hpc h hm hl ha))))))
          · exact Or.inr (Or.inr (Or.inr (Or.inr (Or.inr (Or.inr (Or.inl
              ⟨rs, cur, select_step_accept K e s rs cur hpc h hm hl ha⟩))))))
        · by_cases hr : e.n_read_rtn ≤ 0
          · exact Or.inr (Or.inr (Or.inr (Or.inr (Or.inr (Or.inr (Or.inr (Or.inl
              ⟨rs, cur, hr, select_step_close K e s rs cur hpc h hm hl hr⟩)))))))
          · exact Or.inr (Or.inr (Or.inr (Or.inr (Or.inr (Or.inr (Or.inr (Or.inr
              ⟨rs, cur, by omega, select_step_count K e s rs cur hpc h hm hl hr⟩)))))))
      · exact Or.inr (Or.inr (Or.inr (Or.inr (Or.inl
          ⟨rs, cur, select_step_skip K e s rs cur hpc h hm⟩))))
    · exact Or.inr (Or.inr (Or.inr (Or.inl (select_step_exit K e s rs cur hpc h))))

/-! ## The sender's streaming loop -/

theorem sender_stream_loop_nonneg (ws : List Int) :
    ∀ nbytes : Int, (∀ n ∈ ws, 0 ≤ n) → sender_stream_loop nbytes ws = nbytes + ws.sum := by
  induction ws with
  | nil => intro nbytes _; simp [sender_stream_loop]
  | cons n ws ih =>
    intro nbytes h
    have hn := h n (List.mem_cons_self _ _)
    have h1 : ¬ n < 0 := by omega
    rw [sender_stream_loop, if_neg h1, ih (nbytes + n) (fun m hm => h m (List.mem_cons_of_mem _ hm)),
      List.sum_cons]
    omega

theorem sender_stream_loop_error (ws : List Int) :
    ∀ nbytes : Int, (∃ n ∈ ws, n < 0) → sender_stream_loop nbytes ws = 0 := by
  induction ws with
  | nil => intro nbytes h; obtain ⟨n, hn, _⟩ := h; cases hn
  | cons n ws ih =>
    intro nbytes h
    by_cases h1 : n < 0
    · rw [sender_stream_loop, if_pos h1]
    · rw [sender_stream_loop, if_neg h1]
      apply ih
      obtain ⟨m, hm, hneg⟩ := h
      rcases List.mem_cons.mp hm with rfl | hm
      · exact absurd hneg h1
      · exact ⟨m, hm, hneg⟩

/-! ## The receiver's loop: counter and watermark -/

theorem positive_bytes_append (a b : List Call) :
    positive_bytes (a ++ b) = positive_bytes a + positive_bytes b := by
  induction a with
  | nil => simp [positive_bytes]
  | cons c a ih =>
    cases c <;> simp [positive_bytes, ih]
    omega

theorem positive_bytes_nonneg (a : List Call) : 0 ≤ positive_bytes a := by
  induction a with
  | nil => simp [positive_bytes]
  | cons c a ih =>
    cases c <;> simp only [positive_bytes] <;> try exact ih
    split <;> omega

theorem select_run_append (K : ErrorCodes) (a b : List SelectEnv) :
    ∀ s : SelectState, ntttcp_server_select_run K s (a ++ b)
      = ntttcp_server_select_run K (ntttcp_server_select_run K s a) b := by
  induction a with
  | nil => intro s; rfl
  | cons e a ih => intro s; simp [ntttcp_server_select_run, ih]

theorem select_calls_append (K : ErrorCodes) (a b : List SelectEnv) :
    ∀ s : SelectState,
      ntttcp_server_select_calls K s (a ++ b)
        = ntttcp_server_select_calls K s a
          ++ ntttcp_server_select_calls K (ntttcp_server_select_run K s a) b := by
  induction a with
  | nil => intro s; rfl
  | cons e a ih => intro s; simp [ntttcp_server_select_run, ntttcp_server_select_calls, ih]

theorem select_step_counter (K : ErrorCodes) (e : SelectEnv) (s : SelectState) :
    (ntttcp_server_select_step K e s).1.ss.total_bytes_transferred
      = s.ss.total_bytes_transferred + positive_bytes (ntttcp_server_select_step K e s).2 := by
  rcases select_step_cases K e s with h | h | h | h | ⟨rs, cur, h⟩ | h | ⟨rs, cur, h⟩ |
    ⟨rs, cur, hr, h⟩ | ⟨rs, cur, hr, h⟩
  · rw [h]; simp [positive_bytes]
  · rw [h]; simp [positive_bytes]
  · rw [h]; simp [positive_bytes]
  · rw [h]; simp [positive_bytes]
  · rw [h]; simp [positive_bytes]
  · rw [h]; simp [positive_bytes]
  · rw [h]
    simp only [positive_bytes, add_zero, watch_new_fd]
    split <;> rfl
  · rw [h]
    have : ¬ 0 < e.n_read_rtn := by omega
    simp [positive_bytes, this]
  · rw [h]
    simp [positive_bytes, hr]

theorem select_run_counter (K : ErrorCodes) (es : List SelectEnv) :
    ∀ s : SelectState,
      (ntttcp_server_select_run K s es).ss.total_bytes_transferred
        = s.ss.total_bytes_transferred + positive_bytes (ntttcp_server_select_calls K s es) := by
  induction es with
  | nil => intro s; simp [ntttcp_server_select_run, ntttcp_server_select_calls, positive_bytes]
  | cons e es ih =>
    intro s
    rw [ntttcp_server_select_run, ntttcp_server_select_calls, ih, select_step_counter, positive_bytes_append]
    omega

theorem watch_new_fd_watermark (ss : ntttcp_stream_server) (newfd : Int)
    (h : watermark_ok ss) : watermark_ok (watch_new_fd ss newfd) := by
  intro fd hfd
  unfold watch_new_fd at hfd ⊢
  by_cases hgt : newfd > ss.max_fd
  · simp only [hgt, if_true] at hfd ⊢
    simp only [FD_SET, Finset.mem_insert] at hfd
    rcases hfd with rfl | hfd
    · exact le_refl _
    · have := h fd hfd
      omega
  · simp only [hgt, if_false] at hfd ⊢
    simp only [FD_SET, Finset.mem_insert] at hfd
    rcases hfd with rfl | hfd
    · omega
    · exact h fd hfd

theorem select_step_watermark (K : ErrorCodes) (e : SelectEnv) (s : SelectState)
    (h : watermark_ok s.ss) : watermark_ok (ntttcp_server_select_step K e s).1.ss := by
  rcases select_step_cases K e s with h1 | h1 | h1 | h1 | ⟨rs, cur, h1⟩ | h1 | ⟨rs, cur, h1⟩ |
    ⟨rs, cur, hr, h1⟩ | ⟨rs, cur, hr, h1⟩
  · rw [h1]; exact h
  · rw [h1]; exact h
  · rw [h1]; exact h
  · rw [h1]; exact h
  · rw [h1]; exact h
  · rw [h1]; exact h
  · rw [h1]; exact watch_new_fd_watermark s.ss e.accept_rtn h
  · rw [h1]
    intro fd hfd
    simp only [FD_CLR, Finset.mem_erase] at hfd
    exact h fd hfd.2
  · rw [h1]; exact h

theorem select_run_watermark (K : ErrorCodes) (es : List SelectEnv) :
    ∀ s : SelectState, watermark_ok s.ss → watermark_ok (ntttcp_server_select_run K s es).ss := by
  induction es with
  | nil => intro s h; exact h
  | cons e es ih => intro s h; exact ih _ (select_step_watermark K e s h)

theorem listen_bind_loop_returned (cs : List BindCandidate) :
    ∀ (sockfd0 rtn : Int), listen_bind_loop sockfd0 cs = .returned rtn → rtn = -1 := by
  induction cs with
  | nil => intro a b h; simp [listen_bind_loop] at h
  | cons p cs ih =>
    intro a b h
    rw [listen_bind_loop] at h
    split at h
    · cases h; rfl
    · split at h
      · cases h; rfl
      · split at h
        · cases h; rfl
        · split at h
          · exact ih _ _ h
          · cases h

theorem ntttcp_server_listen_watermark (ss : ntttcp_stream_server) (env : ListenEnv)
    (h : 0 ≤ (ntttcp_server_listen ss env).1) :
    watermark_ok (ntttcp_server_listen ss env).2 ∧
      (ntttcp_server_listen ss env).2.listener = (ntttcp_server_listen ss env).1 := by
  unfold ntttcp_server_listen at h ⊢
  by_cases hg : env.getaddrinfo_rtn ≠ 0
  · rw [if_pos hg] at h
    simp at h
  · rw [if_neg hg] at h ⊢
    by_cases hm : (!env.malloc_ok) = true
    · rw [if_pos hm] at h
      simp at h
    · rw [if_neg hm] at h ⊢
      cases hloop : listen_bind_loop 0 env.candidates with
      | returned rtn =>
        rw [hloop] at h
        have := listen_bind_loop_returned _ _ _ hloop
        simp only at h
        omega
      | done sockfd p_null =>
        rw [hloop] at h
        simp only at h ⊢
        by_cases hp : p_null = true
        · rw [if_pos hp] at h
          simp at h
        · rw [if_neg hp] at h ⊢
          by_cases hl : env.listen_rtn < 0
          · rw [if_pos hl] at h
            simp at h
          · rw [if_neg hl] at h ⊢
            by_cases hgt : sockfd > ss.max_fd
            · rw [if_pos hgt]
              refine ⟨?_, rfl⟩
              intro fd hfd
              simp only [FD_SET, FD_ZERO, Finset.mem_insert, Finset.not_mem_empty, or_false] at hfd
              simp only
              omega
            · rw [if_neg hgt]
              refine ⟨?_, rfl⟩
              intro fd hfd
              simp only [FD_SET, FD_ZERO, Finset.mem_insert, Finset.not_mem_empty, or_false] at hfd
              simp only
              omega

/-! ## One wake-up of the receiver's loop -/

theorem until_select_append (a b : List Call) (h : ∀ c ∈ a, c.is_select = false) :
    until_select (a ++ b) = a ++ until_select b := by
  induction a with
  | nil => rfl
  | cons c a ih =>
    have hc := h c (List.mem_cons_self _ _)
    have ih1 := ih (fun d hd => h d (List.mem_cons_of_mem _ hd))
    unfold until_select at ih1 ⊢
    simp [List.takeWhile_cons, hc, ih1]

theorem filter_accept_nil (a : List Call) (h : ∀ c ∈ a, c.is_accept = false) :
    a.filter Call.is_accept = [] := by
  induction a with
  | nil => rfl
  | cons c a ih =>
    have hc := h c (List.mem_cons_self _ _)
    simp [List.filter_cons, hc, ih (fun d hd => h d (List.mem_cons_of_mem _ hd))]

/-- The body of the `for` loop on a descriptor that is not the listener: the
loop moves on, the listener and the watermark stay, no `accept` or `select` is
called. -/
theorem select_step_not_listener (K : ErrorCodes) (e : SelectEnv) (s : SelectState)
    (rs : fd_set) (cur : Int) (hpc : s.pc = .scan rs cur) (h : cur ≤ s.ss.max_fd)
    (hl : ¬ cur = s.ss.listener) :
    (ntttcp_server_select_step K e s).1.pc = .scan rs (cur + 1) ∧
    (ntttcp_server_select_step K e s).1.ss.listener = s.ss.listener ∧
    (ntttcp_server_select_step K e s).1.ss.max_fd = s.ss.max_fd ∧
    ∀ c ∈ (ntttcp_server_select_step K e s).2, c.is_accept = false ∧ c.is_select = false := by
  by_cases hm : cur ∈ rs
  · by_cases hr : e.n_read_rtn ≤ 0
    · rw [select_step_close K e s rs cur hpc h hm hl hr]
      simp [Call.is_accept, Call.is_select]
    · rw [select_step_count K e s rs cur hpc h hm hl hr]
      simp [Call.is_accept, Call.is_select]
  · rw [select_step_skip K e s rs cur hpc h hm]
    simp

theorem scan_reaches_listener (K : ErrorCodes) (rs : fd_set) :
    ∀ (es : List SelectEnv) (s : SelectState) (cur : Int), s.pc = .scan rs cur →
      cur + es.length = s.ss.listener → s.ss.listener ≤ s.ss.max_fd →
      (ntttcp_server_select_run K s es).pc = .scan rs s.ss.listener ∧
      (ntttcp_server_select_run K s es).ss.listener = s.ss.listener ∧
      s.ss.max_fd ≤ (ntttcp_server_select_run K s es).ss.max_fd ∧
      ∀ c ∈ ntttcp_server_select_calls K s es, c.is_accept = false ∧ c.is_select = false := by
  intro es
  induction es with
  | nil =>
    intro s cur hpc hcur hl
    simp only [List.length_nil, Nat.cast_zero, add_zero] at hcur
    subst hcur
    simp [ntttcp_server_select_run, ntttcp_server_select_calls, hpc]
  | cons e es ih =>
    intro s cur hpc hcur hl
    simp only [List.length_cons, Nat.cast_add, Nat.cast_one] at hcur
    obtain ⟨h1, h2, h3, h4⟩ :=
      select_step_not_listener K e s rs cur hpc (by omega) (by omega)
    obtain ⟨i1, i2, i3, i4⟩ := ih (ntttcp_server_select_step K e s).1 (cur + 1) h1 (by rw [h2]; omega)
      (by rw [h2, h3]; exact hl)
    rw [h2] at i1 i2
    rw [h3] at i3
    refine ⟨i1, i2, i3, ?_⟩
    intro c hc
    simp only [ntttcp_server_select_calls, List.mem_append] at hc
    rcases hc with hc | hc
    · exact h4 c hc
    · exact i4 c hc

theorem no_accept_after_listener (K : ErrorCodes) :
    ∀ (es : List SelectEnv) (s : SelectState),
      (s.pc = .wait ∨ (∃ rtn, s.pc = .stopped rtn) ∨
        ∃ rs cur, s.pc = .scan rs cur ∧ s.ss.listener < cur) →
      (until_select (ntttcp_server_select_calls K s es)).filter Call.is_accept = [] := by
  intro es
  induction es with
  | nil => intro s _; rfl
  | cons e es ih =>
    intro s h
    rw [ntttcp_server_select_calls]
    rcases h with hpc | ⟨rtn, hpc⟩ | ⟨rs, cur, hpc, hlt⟩
    · by_cases hs : e.select_rtn < 0 ∧ e.errno ≠ EINTR
      · rw [select_step_wait_failed K e s hpc hs]
        simp [until_select, List.takeWhile_cons, Call.is_select]
      · rw [select_step_wait_ready K e s hpc hs]
        simp [until_select, List.takeWhile_cons, Call.is_select]
    · rw [select_step_stopped K e s rtn hpc]
      simp only [List.nil_append]
      exact ih s (Or.inr (Or.inl ⟨rtn, hpc⟩))
    · by_cases hle : cur ≤ s.ss.max_fd
      · obtain ⟨h1, h2, _, h4⟩ :=
          select_step_not_listener K e s rs cur hpc hle (by omega)
        rw [until_select_append _ _ (fun c hc => (h4 c hc).2), List.filter_append,
          filter_accept_nil _ (fun c hc => (h4 c hc).1), List.nil_append]
        exact ih _ (Or.inr (Or.inr ⟨rs, cur + 1, h1, by rw [h2]; omega⟩))
      · rw [select_step_exit K e s rs cur hpc hle]
        simp only [List.nil_append]
        exact ih _ (Or.inl rfl)

theorem watch_new_fd_spec (ss : ntttcp_stream_server) (newfd : Int) :
    newfd ∈ (watch_new_fd ss newfd).read_set ∧ newfd ≤ (watch_new_fd ss newfd).max_fd ∧
      (watch_new_fd ss newfd).listener = ss.listener := by
  unfold watch_new_fd
  by_cases hgt : newfd > ss.max_fd
  · simp [hgt, FD_SET]
  · simp only [hgt, if_false, FD_SET, Finset.mem_insert, true_or, true_and, and_true]
    omega

/-- The step that handles the listener: one `accept` call; on success the
loop moves on with the new descriptor watched, on failure it goes back to
`select`. -/
theorem select_step_listener (K : ErrorCodes) (e : SelectEnv) (s : SelectState)
    (rs : fd_set) (hpc : s.pc = .scan rs s.ss.listener) (h : s.ss.listener ≤ s.ss.max_fd)
    (hm : s.ss.listener ∈ rs) :
    (ntttcp_server_select_step K e s).2 = [.accept_call e.accept_rtn] ∧
    ((ntttcp_server_select_step K e s).1.pc = .wait ∨
      ((ntttcp_server_select_step K e s).1.pc = .scan rs (s.ss.listener + 1) ∧
        (ntttcp_server_select_step K e s).1.ss.listener = s.ss.listener)) ∧
    (0 ≤ e.accept_rtn → e.accept_rtn ∈ (ntttcp_server_select_step K e s).1.ss.read_set ∧
      e.accept_rtn ≤ (ntttcp_server_select_step K e s).1.ss.max_fd) := by
  by_cases ha : e.accept_rtn < 0
  · rw [select_step_accept_failed K e s rs _ hpc h hm rfl ha]
    refine ⟨rfl, Or.inl rfl, ?_⟩
    intro h0
    omega
  · rw [select_step_accept K e s rs _ hpc h hm rfl ha]
    obtain ⟨w1, w2, w3⟩ := watch_new_fd_spec s.ss e.accept_rtn
    exact ⟨rfl, Or.inr ⟨rfl, w3⟩, fun _ => ⟨w1, w2⟩⟩

/-! ## `n_write` and `n_read`: results -/

/-- C2 (as stated, refuted): with `total = 2^31` and two `write` calls that accept
`2^30` bytes each, the socket accepted `total` bytes, no call failed and none
returned 0, yet `n_write` returns `-2^31`: `return total` narrows the `size_t`
to `int`. -/
theorem n_write_large_total_wraps :
    n_write sample_codes 2147483648 [⟨1073741824, 0⟩, ⟨1073741824, 0⟩] = some (-2147483648) ∧
    rtn_sum [⟨1073741824, 0⟩, ⟨1073741824, 0⟩] = 2147483648 ∧
    n_write sample_codes 2147483648 [⟨1073741824, 0⟩, ⟨1073741824, 0⟩] ≠ some 2147483648 := by
  decide

/-- C2 (amended): for every `total` up to `INT_MAX` and every run `pre` of
positive `write` results, `n_write` returns `total` when the results add up to
`total` (whatever the later calls would give), and when they add up to less and
the next call fails with `EINTR` or `EAGAIN` it returns their sum, a
non-negative count different from `ERROR_NETWORK_WRITE`. -/
theorem n_write_returns_bytes_accepted (K : ErrorCodes) (total : Nat)
    (pre rest : List SysResult) (hE : K.ERROR_NETWORK_WRITE < 0)
    (hmax : total < 2147483648) (hpos : ∀ p ∈ pre, 0 < p.rtn) :
    (rtn_sum pre = total → n_write K total (pre ++ rest) = some (total : Int)) ∧
    (rtn_sum pre < total → ∀ r : SysResult, r.rtn < 0 →
      (r.errno = EINTR ∨ r.errno = EAGAIN) →
        n_write K total (pre ++ r :: rest) = some (rtn_sum pre) ∧ 0 ≤ rtn_sum pre ∧
          rtn_sum pre ≠ K.ERROR_NETWORK_WRITE) := by
  have hnn := rtn_sum_nonneg pre hpos
  constructor
  · intro hsum
    unfold n_write
    rw [n_write_loop_run K total rest pre total hpos (by omega) (by omega)]
    have : total - (rtn_sum pre).toNat = 0 := by omega
    rw [this, n_write_loop_zero, to_int_of_small _ (by omega) (by omega)]
  · intro hsum r hr herr
    refine ⟨?_, hnn, by omega⟩
    unfold n_write
    rw [n_write_loop_run K total (r :: rest) pre total hpos (by omega) (by omega)]
    have hleft : total - (rtn_sum pre).toNat > 0 := by omega
    rw [n_write_loop, if_pos hleft, if_pos hr, if_pos herr,
      count_of_small total _ (by omega) hmax]
    congr 1
    omega

/-- Witness for C2: a 10-byte request met by writes of 4 and 6 bytes, and one cut
short by `EAGAIN` after 4 bytes. -/
theorem n_write_returns_bytes_accepted_witness :
    n_write sample_codes 10 ([⟨4, 0⟩, ⟨6, 0⟩] ++ []) = some 10 ∧
    n_write sample_codes 10 ([⟨4, 0⟩] ++ ⟨-1, 35⟩ :: []) = some 4 :=
  ⟨(n_write_returns_bytes_accepted sample_codes 10 [⟨4, 0⟩, ⟨6, 0⟩] [] (by decide) (by decide)
      (by decide)).1 (by decide),
   ((n_write_returns_bytes_accepted sample_codes 10 [⟨4, 0⟩] [] (by decide) (by decide)
      (by decide)).2 (by decide) ⟨-1, 35⟩ (by decide) (by decide)).1⟩

/-- C3 (as stated, refuted): with `ERROR_NETWORK_WRITE = -1106` and
`total = 2^32 - 1106`, four `write` calls accept all `total` bytes, none fails
and none returns 0, yet `n_write` returns `ERROR_NETWORK_WRITE`: `return total`
narrows the `size_t` to `int`.  The same happens for any negative `int` code
`c` at `total = 2^32 + c`. -/
theorem n_write_error_code_without_failure :
    n_write sample_codes 4294966190
        [⟨1073741824, 0⟩, ⟨1073741824, 0⟩, ⟨1073741824, 0⟩, ⟨1073740718, 0⟩]
      = some sample_codes.ERROR_NETWORK_WRITE ∧
    admissible 4294966190
        [⟨1073741824, 0⟩, ⟨1073741824, 0⟩, ⟨1073741824, 0⟩, ⟨1073740718, 0⟩] = true ∧
    write_hard_fails 4294966190
        [⟨1073741824, 0⟩, ⟨1073741824, 0⟩, ⟨1073741824, 0⟩, ⟨1073740718, 0⟩] = false := by
  decide

/-- C3 (amended): for every `total` up to `INT_MAX` and every sequence of `write`
outcomes in which no call reports more bytes than it was asked for, `n_write`
returns `ERROR_NETWORK_WRITE` if and only if, before `total` bytes have been
accepted and before any `EINTR`/`EAGAIN` failure, some `write` call fails with
another `errno` or returns 0. -/
theorem n_write_error_iff (K : ErrorCodes) (total : Nat) (trace : List SysResult)
    (hE : K.ERROR_NETWORK_WRITE < 0) (hmax : total < 2147483648)
    (hadm : admissible total trace = true) :
    n_write K total trace = some K.ERROR_NETWORK_WRITE ↔ write_hard_fails total trace = true :=
  n_write_loop_error_iff K total hE hmax trace total (Nat.le_refl _) hadm

/-- Witness for C3: 4 bytes written, then `write` fails with `EPIPE` (32). -/
theorem n_write_error_iff_witness :
    write_hard_fails 10 [⟨4, 0⟩, ⟨-1, 32⟩] = true ∧
    n_write sample_codes 10 [⟨4, 0⟩, ⟨-1, 32⟩] = some sample_codes.ERROR_NETWORK_WRITE :=
  ⟨by decide,
   (n_write_error_iff sample_codes 10 [⟨4, 0⟩, ⟨-1, 32⟩] (by decide) (by decide)
      (by decide)).mpr (by decide)⟩

/-- C4 (as stated, refuted): with `N = 2^31 + 1`, two `read` calls of `2^30` bytes
and then end-of-stream give `K = 2^31 < N`, yet `n_read` returns `-2^31`:
`return total - left` narrows the `size_t` to `int`. -/
theorem n_read_large_count_wraps :
    n_read sample_codes 2147483649 [⟨1073741824, 0⟩, ⟨1073741824, 0⟩, ⟨0, 0⟩]
      = some (-2147483648) ∧
    rtn_sum [⟨1073741824, 0⟩, ⟨1073741824, 0⟩] = 2147483648 ∧
    n_read sample_codes 2147483649 [⟨1073741824, 0⟩, ⟨1073741824, 0⟩, ⟨0, 0⟩]
      ≠ some 2147483648 := by
  decide

/-- C4 (amended): for every `N` up to `INT_MAX` and every run `pre` of positive
`read` results summing to `K`: if `K < N` and the next call reports the
stream's end or fails with `EINTR` or `EAGAIN`, `n_read` returns `K`, a
non-negative count different from `ERROR_NETWORK_READ`; if `K = N` it returns
`N`, and does so on the trace `pre` alone, that is without a further `read`. -/
theorem n_read_returns_bytes_obtained (K : ErrorCodes) (total : Nat)
    (pre rest : List SysResult) (hE : K.ERROR_NETWORK_READ < 0)
    (hmax : total < 2147483648) (hpos : ∀ p ∈ pre, 0 < p.rtn) :
    (rtn_sum pre < total → ∀ r : SysResult,
      (r.rtn = 0 ∨ (r.rtn < 0 ∧ (r.errno = EINTR ∨ r.errno = EAGAIN))) →
        n_read K total (pre ++ r :: rest) = some (rtn_sum pre) ∧ 0 ≤ rtn_sum pre ∧
          rtn_sum pre ≠ K.ERROR_NETWORK_READ) ∧
    (rtn_sum pre = total →
      n_read K total pre = some (total : Int) ∧ n_read K total (pre ++ rest) = some (total : Int)) := by
  have hnn := rtn_sum_nonneg pre hpos
  constructor
  · intro hsum r hr
    refine ⟨?_, hnn, by omega⟩
    unfold n_read
    rw [n_read_loop_run K total (r :: rest) pre total hpos (by omega) (by omega)]
    have hleft : total - (rtn_sum pre).toNat > 0 := by omega
    have hc := count_of_small total (total - (rtn_sum pre).toNat) (by omega) hmax
    have hval : ((total : Int) - ((total - (rtn_sum pre).toNat : Nat) : Int)) = rtn_sum pre := by
      omega
    rw [n_read_loop, if_pos hleft]
    rcases hr with h0 | ⟨hneg, herr⟩
    · have h1 : ¬ r.rtn < 0 := by omega
      rw [if_neg h1, if_pos h0, hc, hval]
    · rw [if_pos hneg, if_pos herr, hc, hval]
  · intro hsum
    have key : ∀ tail : List SysResult, n_read K total (pre ++ tail) = some (total : Int) := by
      intro tail
      unfold n_read
      rw [n_read_loop_run K total tail pre total hpos (by omega) (by omega)]
      have : total - (rtn_sum pre).toNat = 0 := by omega
      rw [this, n_read_loop_zero, count_of_small total 0 (by omega) hmax]
      simp
    refine ⟨?_, key rest⟩
    have := key []
    simpa using this

/-- Witness for C4: a 10-byte request that meets end-of-stream after 4 bytes,
and one that is filled by reads of 4 and 6 bytes. -/
theorem n_read_returns_bytes_obtained_witness :
    n_read sample_codes 10 ([⟨4, 0⟩] ++ ⟨0, 0⟩ :: []) = some 4 ∧
    n_read sample_codes 10 [⟨4, 0⟩, ⟨6, 0⟩] = some 10 :=
  ⟨((n_read_returns_bytes_obtained sample_codes 10 [⟨4, 0⟩] [] (by decide) (by decide)
      (by decide)).1 (by decide) ⟨0, 0⟩ (by decide)).1,
   ((n_read_returns_bytes_obtained sample_codes 10 [⟨4, 0⟩, ⟨6, 0⟩] [] (by decide) (by decide)
      (by decide)).2 (by decide)).1⟩

/-- C5 (as stated, refuted): with `ERROR_NETWORK_READ = -1105` and
`total = 2^32 - 1105`, four `read` calls deliver all `total` bytes and none
fails, yet `n_read` returns `ERROR_NETWORK_READ`: `return total - left` narrows
the `size_t` to `int`.  The same happens for any negative `int` code `c` at
`total = 2^32 + c`. -/
theorem n_read_error_code_without_failure :
    n_read sample_codes 4294966191
        [⟨1073741824, 0⟩, ⟨1073741824, 0⟩, ⟨1073741824, 0⟩, ⟨1073740719, 0⟩]
      = some sample_codes.ERROR_NETWORK_READ ∧
    admissible 4294966191
        [⟨1073741824, 0⟩, ⟨1073741824, 0⟩, ⟨1073741824, 0⟩, ⟨1073740719, 0⟩] = true ∧
    read_hard_fails 4294966191
        [⟨1073741824, 0⟩, ⟨1073741824, 0⟩, ⟨1073741824, 0⟩, ⟨1073740719, 0⟩] = false := by
  decide

/-- C5 (amended): for every `total` up to `INT_MAX` and every sequence of `read`
outcomes in which no call reports more bytes than it was asked for, `n_read`
returns `ERROR_NETWORK_READ` if and only if, before `total` bytes are obtained
and before any end-of-stream or `EINTR`/`EAGAIN` outcome, some `read` call
fails with an `errno` other than `EINTR` and `EAGAIN`; the bytes read by
earlier calls do not matter. -/
theorem n_read_error_iff (K : ErrorCodes) (total : Nat) (trace : List SysResult)
    (hE : K.ERROR_NETWORK_READ < 0) (hmax : total < 2147483648)
    (hadm : admissible total trace = true) :
    n_read K total trace = some K.ERROR_NETWORK_READ ↔ read_hard_fails total trace = true :=
  n_read_loop_error_iff K total hE hmax trace total (Nat.le_refl _) hadm

/-- Witness for C5: 4 bytes read, then `read` fails with `ECONNRESET` (54). -/
theorem n_read_error_iff_witness :
    read_hard_fails 10 [⟨4, 0⟩, ⟨-1, 54⟩] = true ∧
    n_read sample_codes 10 [⟨4, 0⟩, ⟨-1, 54⟩] = some sample_codes.ERROR_NETWORK_READ :=
  ⟨by decide,
   (n_read_error_iff sample_codes 10 [⟨4, 0⟩, ⟨-1, 54⟩] (by decide) (by decide)
      (by decide)).mpr (by decide)⟩

/-! ## Receiver: counter -/

/-- C1: in `ntttcp_server_select`, for every state `s`, every finite sequence of
steps `es` and every outcome of `select`, `accept` and `n_read` in them, the
counter `total_bytes_transferred` equals its initial value plus the sum of the
strictly positive values returned by the `n_read` calls made, and it never
decreases when the run goes on (`es'`). -/
theorem counter_is_sum_of_positive_reads (K : ErrorCodes) (s : SelectState)
    (es es' : List SelectEnv) :
    (ntttcp_server_select_run K s es).ss.total_bytes_transferred
      = s.ss.total_bytes_transferred + positive_bytes (ntttcp_server_select_calls K s es) ∧
    (ntttcp_server_select_run K s es).ss.total_bytes_transferred
      ≤ (ntttcp_server_select_run K s (es ++ es')).ss.total_bytes_transferred := by
  refine ⟨select_run_counter K es s, ?_⟩
  rw [select_run_append, select_run_counter K es' (ntttcp_server_select_run K s es)]
  have := positive_bytes_nonneg (ntttcp_server_select_calls K (ntttcp_server_select_run K s es) es')
  omega

/-! ## Sender -/

/-- C6 (as stated, refuted): with two resolved candidates, sockets created for
both, `connect` failing on the first and succeeding on the second, the sender
does not stream over the second candidate: the loop returns at the first
failed `connect` and the thread's result is 0. -/
theorem sender_stops_at_first_failed_connect :
    sender_connect_loop 0 second_candidate_reachable.candidates = .returned 0 ∧
    sender_connect_loop 0 second_candidate_reachable.candidates ≠ .proceeds 4 ∧
    run_ntttcp_sender_stream second_candidate_reachable = 0 := by
  decide

/-- C6 (amended): in `run_ntttcp_sender_stream` only the first resolved candidate
is tried.  When its socket is created, the sender goes on to stream over it if
its `connect` succeeds, and ends with a zero-byte result as soon as its
`connect` fails, whatever the later candidates are. -/
theorem sender_tries_first_candidate_only (env : SenderEnv) (p : ConnectCandidate)
    (rest : List ConnectCandidate) (h1 : env.malloc_ip_ok = true)
    (h2 : env.getaddrinfo_rtn = 0) (hc : env.candidates = p :: rest)
    (hs : 0 ≤ p.socket_rtn) :
    (0 ≤ p.connect_rtn →
      sender_connect_loop 0 env.candidates = .proceeds p.socket_rtn ∧
      run_ntttcp_sender_stream env
        = if !env.malloc_buffer_ok then 0 else sender_stream_loop 0 env.writes) ∧
    (p.connect_rtn < 0 →
      sender_connect_loop 0 env.candidates = .returned 0 ∧
      run_ntttcp_sender_stream env = 0) := by
  have hs1 : ¬ p.socket_rtn < 0 := by omega
  constructor
  · intro hcon
    have hcon1 : ¬ p.connect_rtn < 0 := by omega
    have hloop : sender_connect_loop 0 env.candidates = .proceeds p.socket_rtn := by
      rw [hc, sender_connect_loop, if_neg hs1, if_neg hcon1]
    refine ⟨hloop, ?_⟩
    unfold run_ntttcp_sender_stream
    rw [hloop]
    simp [h1, h2]
  · intro hcon
    have hloop : sender_connect_loop 0 env.candidates = .returned 0 := by
      rw [hc, sender_connect_loop, if_neg hs1, if_pos hcon]
    refine ⟨hloop, ?_⟩
    unfold run_ntttcp_sender_stream
    rw [hloop]
    simp [h1, h2]

/-- Witness for C6: the first candidate's `connect` fails, a second candidate
is left untried. -/
theorem sender_tries_first_candidate_only_witness :
    sender_connect_loop 0 second_candidate_reachable.candidates = .returned 0 ∧
    run_ntttcp_sender_stream second_candidate_reachable = 0 :=
  (sender_tries_first_candidate_only second_candidate_reachable ⟨3, -1⟩ [⟨4, 0⟩] rfl rfl rfl
    (by decide)).2 (by decide)

/-- C7 (as stated, refuted): when the streaming loop obtains 5 from `n_write` and
then a negative error code, the thread's result is 0, not the 5 bytes written
before the loop exits. -/
theorem write_error_discards_byte_count :
    sender_stream_loop 0 write_error_after_five.writes = 0 ∧
    run_ntttcp_sender_stream write_error_after_five = 0 ∧
    run_ntttcp_sender_stream write_error_after_five ≠ 5 := by
  decide

/-- C7 (amended): in `run_ntttcp_sender_stream`, once the streaming loop is
reached, the thread's result is the sum of the `n_write` results when the loop
exits because the barrier is no longer on (every result non-negative), and it
is 0 when the loop exits because an `n_write` call returned a negative value
such as `ERROR_NETWORK_WRITE`, whatever was written before. -/
theorem sender_result (env : SenderEnv) (sockfd : Int) (h1 : env.malloc_ip_ok = true)
    (h2 : env.getaddrinfo_rtn = 0)
    (h3 : sender_connect_loop 0 env.candidates = .proceeds sockfd)
    (h4 : env.malloc_buffer_ok = true) :
    ((∀ n ∈ env.writes, 0 ≤ n) → run_ntttcp_sender_stream env = env.writes.sum) ∧
    ((∃ n ∈ env.writes, n < 0) → run_ntttcp_sender_stream env = 0) := by
  have hrun : run_ntttcp_sender_stream env = sender_stream_loop 0 env.writes := by
    unfold run_ntttcp_sender_stream
    rw [h3]
    simp [h1, h2, h4]
  constructor
  · intro h
    rw [hrun, sender_stream_loop_nonneg env.writes 0 h]
    omega
  · intro h
    rw [hrun, sender_stream_loop_error env.writes 0 h]

/-- Witness for C7: two writes of 5 and 7 bytes give 12; a write error after 5
bytes gives 0. -/
theorem sender_result_witness :
    run_ntttcp_sender_stream two_writes = 12 ∧
    run_ntttcp_sender_stream write_error_after_five = 0 :=
  ⟨(sender_result two_writes 3 rfl rfl (by decide) rfl).1 (by decide),
   (sender_result write_error_after_five 3 rfl rfl (by decide) rfl).2 (by decide)⟩

/-! ## Receiver: accepting connections -/

/-- C8 (as stated, refuted): the listener (descriptor 3) is reported readable with
two connections pending, so that `accept` would return 4 and then 5.  The
wake-up makes one `accept` call, watches descriptor 4, and is back at
`select` with descriptor 5 not accepted. -/
theorem one_wakeup_accepts_one_connection :
    (ntttcp_server_select_run sample_codes listening_state
      [pending_connection 4, pending_connection 4, pending_connection 4, pending_connection 4,
       pending_connection 4, pending_connection 5, pending_connection 5]).pc = .wait ∧
    ntttcp_server_select_calls sample_codes listening_state
      [pending_connection 4, pending_connection 4, pending_connection 4, pending_connection 4,
       pending_connection 4, pending_connection 5, pending_connection 5]
      = [.select_call, .accept_call 4] ∧
    (ntttcp_server_select_run sample_codes listening_state
      [pending_connection 4, pending_connection 4, pending_connection 4, pending_connection 4,
       pending_connection 4, pending_connection 5, pending_connection 5]).ss.read_set = {3, 4} ∧
    (5 : Int) ∉ (ntttcp_server_select_run sample_codes listening_state
      [pending_connection 4, pending_connection 4, pending_connection 4, pending_connection 4,
       pending_connection 4, pending_connection 5, pending_connection 5]).ss.read_set := by
  decide

/-- C8 (amended): in `ntttcp_server_select`, a wake-up that reports the listener
read-ready makes exactly one `accept` call before the next `select`, however
many connections are pending; when that call succeeds, the accepted
descriptor is in `ss->read_set` and at most `ss->max_fd` right after it, and no
`select` has been called in between.  Here `s` is a state about to call
`select` in which the listener is a watched, non-negative descriptor within
the watermark, `e0` is the environment of the `select` step, `before` those of
the steps for the descriptors below the listener, `e` that of the step at the
listener, `after` the rest of the run. -/
theorem one_accept_per_wakeup (K : ErrorCodes) (s : SelectState) (e0 e : SelectEnv)
    (before after : List SelectEnv) (hpc : s.pc = .wait)
    (hsel : ¬ (e0.select_rtn < 0 ∧ e0.errno ≠ EINTR))
    (hw : s.ss.listener ∈ s.ss.read_set) (hr : s.ss.listener ∈ e0.ready)
    (h0 : 0 ≤ s.ss.listener) (hl : s.ss.listener ≤ s.ss.max_fd)
    (hlen : before.length = s.ss.listener.toNat) :
    (until_select (ntttcp_server_select_calls K (ntttcp_server_select_step K e0 s).1 (before ++ e :: after))).filter
        Call.is_accept = [.accept_call e.accept_rtn] ∧
    (0 ≤ e.accept_rtn →
      e.accept_rtn ∈ (ntttcp_server_select_run K s (e0 :: (before ++ [e]))).ss.read_set ∧
      e.accept_rtn ≤ (ntttcp_server_select_run K s (e0 :: (before ++ [e]))).ss.max_fd ∧
      ∀ c ∈ ntttcp_server_select_calls K (ntttcp_server_select_step K e0 s).1 (before ++ [e]), c.is_select = false) := by
  have hstep := select_step_wait_ready K e0 s hpc hsel
  have hmem : s.ss.listener ∈ select_result s.ss e0.ready := by
    simp [select_result, hw, hr]
  obtain ⟨a1, a2, a3, a4⟩ := scan_reaches_listener K (select_result s.ss e0.ready) before
    (ntttcp_server_select_step K e0 s).1 0 (by rw [hstep]) (by rw [hstep, hlen]; simp only; omega)
    (by rw [hstep]; exact hl)
  have hlis : (ntttcp_server_select_step K e0 s).1.ss.listener = s.ss.listener := by rw [hstep]
  have hmax : (ntttcp_server_select_step K e0 s).1.ss.max_fd = s.ss.max_fd := by rw [hstep]
  rw [hlis] at a1 a2
  rw [hmax] at a3
  obtain ⟨b1, b2, b3⟩ := select_step_listener K e (ntttcp_server_select_run K (ntttcp_server_select_step K e0 s).1 before)
    (select_result s.ss e0.ready) (by rw [a2]; exact a1) (by rw [a2]; omega)
    (by rw [a2]; exact hmem)
  constructor
  · rw [select_calls_append, until_select_append _ _ (fun c hc => (a4 c hc).2),
      List.filter_append, filter_accept_nil _ (fun c hc => (a4 c hc).1), List.nil_append,
      ntttcp_server_select_calls, b1,
      until_select_append _ _ (by simp [Call.is_select]), List.filter_append]
    have hrest := no_accept_after_listener K after
      (ntttcp_server_select_step K e (ntttcp_server_select_run K (ntttcp_server_select_step K e0 s).1 before)).1 (by
        rcases b2 with b2 | ⟨b2, b2l⟩
        · exact Or.inl b2
        · exact Or.inr (Or.inr ⟨_, _, b2, by rw [b2l]; omega⟩))
    rw [hrest]
    simp [Call.is_accept]
  · intro hacc
    have hrun : ntttcp_server_select_run K s (e0 :: (before ++ [e]))
        = (ntttcp_server_select_step K e (ntttcp_server_select_run K (ntttcp_server_select_step K e0 s).1 before)).1 := by
      rw [ntttcp_server_select_run, select_run_append]
      rfl
    rw [hrun]
    refine ⟨(b3 hacc).1, (b3 hacc).2, ?_⟩
    intro c hc
    rw [select_calls_append] at hc
    simp only [List.mem_append] at hc
    rcases hc with hc | hc
    · exact (a4 c hc).2
    · simp only [ntttcp_server_select_calls, b1, List.append_nil, List.mem_singleton] at hc
      subst hc
      rfl

/-- Witness for C8: listener 3 reported readable, the step at descriptor 3
accepts descriptor 4. -/
theorem one_accept_per_wakeup_witness :
    (until_select (ntttcp_server_select_calls sample_codes
        (ntttcp_server_select_step sample_codes (pending_connection 4) listening_state).1
        ([pending_connection 4, pending_connection 4, pending_connection 4]
          ++ pending_connection 4 :: [pending_connection 5, pending_connection 5]))).filter
        Call.is_accept = [.accept_call 4] :=
  (one_accept_per_wakeup sample_codes listening_state (pending_connection 4)
    (pending_connection 4) [pending_connection 4, pending_connection 4, pending_connection 4]
    [pending_connection 5, pending_connection 5] rfl (by decide) (by decide) (by decide)
    (by decide) (by decide) (by decide)).1

/-! ## Receiver: watermark -/

/-- C9: whenever `ntttcp_server_listen` succeeds (returns a non-negative
descriptor), every member of `ss->read_set` is at most `ss->max_fd` right after
it, and this still holds after every finite sequence of steps of
`ntttcp_server_select` started by `run_ntttcp_receiver_stream` on that server
record, whatever `select`, `accept` and `n_read` return. -/
theorem watermark_bounds_watched_set (K : ErrorCodes) (ss : ntttcp_stream_server)
    (lenv : ListenEnv) (h : 0 ≤ (ntttcp_server_listen ss lenv).1) :
    (∀ fd ∈ (ntttcp_server_listen ss lenv).2.read_set,
      fd ≤ (ntttcp_server_listen ss lenv).2.max_fd) ∧
    ∀ (light_on malloc_buffer_ok malloc_ip_ok : Bool) (es : List SelectEnv),
      ∀ fd ∈ (ntttcp_server_select_run K
          (run_ntttcp_receiver_stream K ss light_on lenv malloc_buffer_ok malloc_ip_ok)
          es).ss.read_set,
        fd ≤ (ntttcp_server_select_run K
          (run_ntttcp_receiver_stream K ss light_on lenv malloc_buffer_ok malloc_ip_ok)
          es).ss.max_fd := by
  obtain ⟨hw, hlis⟩ := ntttcp_server_listen_watermark ss lenv h
  refine ⟨hw, ?_⟩
  intro light_on b1 b2 es
  apply select_run_watermark K es
  have hss : ∀ st : SelectState,
      st = run_ntttcp_receiver_stream K ss light_on lenv b1 b2 → watermark_ok st.ss := by
    intro st hst
    have hsame : ({ (ntttcp_server_listen ss lenv).2 with
        listener := (ntttcp_server_listen ss lenv).1 } : ntttcp_stream_server)
          = (ntttcp_server_listen ss lenv).2 := by
      rw [← hlis]
    unfold run_ntttcp_receiver_stream at hst
    simp only [hsame] at hst
    unfold ntttcp_server_select_entry at hst
    split_ifs at hst <;> (subst hst; exact hw)
  exact hss _ rfl

/-- Witness for C9: a listener bound to descriptor 3. -/
theorem watermark_bounds_watched_set_witness :
    0 ≤ (ntttcp_server_listen fresh_server listen_succeeds).1 ∧
    ∀ fd ∈ (ntttcp_server_select_run sample_codes
        (run_ntttcp_receiver_stream sample_codes fresh_server false listen_succeeds true true)
        [pending_connection 4, pending_connection 4]).ss.read_set,
      fd ≤ (ntttcp_server_select_run sample_codes
        (run_ntttcp_receiver_stream sample_codes fresh_server false listen_succeeds true true)
        [pending_connection 4, pending_connection 4]).ss.max_fd :=
  ⟨by decide,
   (watermark_bounds_watched_set sample_codes fresh_server listen_succeeds (by decide)).2
     false true true [pending_connection 4, pending_connection 4]⟩

/-! ## Receiver: a transient failure of the first `read` -/

theorem n_read_first_call_zero (K : ErrorCodes) (total : Nat) (r : SysResult)
    (rest : List SysResult)
    (h : r.rtn = 0 ∨ (r.rtn < 0 ∧ (r.errno = EINTR ∨ r.errno = EAGAIN))) :
    n_read K total (r :: rest) = some 0 := by
  have hz : to_int (to_size_t ((total : Int) - (total : Nat))) = 0 := by
    rw [sub_self]
    rfl
  unfold n_read
  rw [n_read_loop]
  by_cases hl : total > 0
  · rw [if_pos hl]
    rcases h with h0 | ⟨hneg, herr⟩
    · have h1 : ¬ r.rtn < 0 := by omega
      rw [if_neg h1, if_pos h0, hz]
    · rw [if_pos hneg, if_pos herr, hz]
  · rw [if_neg hl, hz]

/-- C10: `n_read` returns 0 both when its first `read` reports end-of-stream
(`eof`) and when its first `read` fails with `EINTR` or `EAGAIN` (`again`).
Consequently, when the loop of `ntttcp_server_select` handles a read-ready
data connection `cur` and the `n_read` call it makes meets such a failure at its
first `read`, the step closes `cur`, removes it from `ss->read_set` and leaves
the counter unchanged, and it is the same step as for an orderly close. -/
theorem transient_first_read_closes_connection (K : ErrorCodes) (s : SelectState)
    (rs : fd_set) (cur : Int) (total : Nat) (eof again : SysResult)
    (rest rest' : List SysResult) (e e' : SelectEnv)
    (heof : eof.rtn = 0) (hneg : again.rtn < 0)
    (herr : again.errno = EINTR ∨ again.errno = EAGAIN)
    (hpc : s.pc = .scan rs cur) (hle : cur ≤ s.ss.max_fd) (hready : cur ∈ rs)
    (hdata : cur ≠ s.ss.listener)
    (hread : n_read K (bytes_to_be_read s.ss) (again :: rest') = some e.n_read_rtn)
    (hclose : n_read K (bytes_to_be_read s.ss) (eof :: rest) = some e'.n_read_rtn) :
    n_read K total (eof :: rest) = some 0 ∧
    n_read K total (again :: rest') = some 0 ∧
    ntttcp_server_select_step K e s
      = ({ s with
            ss := { s.ss with read_set := FD_CLR cur s.ss.read_set }
            pc := .scan rs (cur + 1) },
          [.n_read_call cur (bytes_to_be_read s.ss) 0, .close_call cur]) ∧
    cur ∉ (ntttcp_server_select_step K e s).1.ss.read_set ∧
    (ntttcp_server_select_step K e s).1.ss.total_bytes_transferred = s.ss.total_bytes_transferred ∧
    ntttcp_server_select_step K e s = ntttcp_server_select_step K e' s := by
  have hz := n_read_first_call_zero K (bytes_to_be_read s.ss) again rest' (Or.inr ⟨hneg, herr⟩)
  have hz' := n_read_first_call_zero K (bytes_to_be_read s.ss) eof rest (Or.inl heof)
  rw [hz] at hread
  rw [hz'] at hclose
  have he : e.n_read_rtn = 0 := by
    simp only [Option.some.injEq] at hread
    omega
  have he' : e'.n_read_rtn = 0 := by
    simp only [Option.some.injEq] at hclose
    omega
  have hs := select_step_close K e s rs cur hpc hle hready hdata (by omega)
  have hs' := select_step_close K e' s rs cur hpc hle hready hdata (by omega)
  rw [he] at hs
  rw [he'] at hs'
  simp only [if_true] at hs hs'
  refine ⟨n_read_first_call_zero K total eof rest (Or.inl heof),
    n_read_first_call_zero K total again rest' (Or.inr ⟨hneg, herr⟩), hs, ?_, ?_, ?_⟩
  · rw [hs]
    simp [FD_CLR]
  · rw [hs]
  · rw [hs, hs']

/-- Witness for C10: descriptor 4 is readable, its first `read` fails with
`EAGAIN` (35); the connection is closed. -/
theorem transient_first_read_closes_connection_witness :
    n_read sample_codes 65536 [⟨-1, 35⟩] = some 0 ∧
    (4 : Int) ∉ (ntttcp_server_select_step sample_codes (read_outcome 0) serving_state).1.ss.read_set :=
  ⟨(transient_first_read_closes_connection sample_codes serving_state {4} 4 65536 ⟨0, 0⟩
      ⟨-1, 35⟩ [] [] (read_outcome 0) (read_outcome 0) rfl (by decide) (by decide) rfl
      (by decide) (by decide) (by decide) (by decide) (by decide)).2.1,
   (transient_first_read_closes_connection sample_codes serving_state {4} 4 65536 ⟨0, 0⟩
      ⟨-1, 35⟩ [] [] (read_outcome 0) (read_outcome 0) rfl (by decide) (by decide) rfl
      (by decide) (by decide) (by decide) (by decide) (by decide)).2.2.2.1⟩

end Ntttcp
